import Mathlib

/-!
Verification of the smoothing / projection core of `smooth-bevy-cameras`.

The Rust source is shallowly embedded: `f32` scalar arithmetic is modelled
exactly over `ℚ` (the claims under study concern the algebraic formulas, not
rounding), glam vectors become records of rationals, and the one genuinely
fallible library operation (`glam::Vec3::normalize`, which produces NaN
components on a zero vector) is modelled over `ℝ` with an `Option` result.
-/

namespace SmoothBevyCameras

/-- glam `Vec3`, componentwise over `ℚ` (models `src/src/look_transform.rs`). -/
structure Vec3 where
  x : ℚ
  y : ℚ
  z : ℚ
deriving DecidableEq, Repr

/-- Componentwise vector addition (glam `Vec3 + Vec3`). -/
def Vec3.add (a b : Vec3) : Vec3 := ⟨a.x + b.x, a.y + b.y, a.z + b.z⟩

/-- Componentwise vector subtraction (glam `Vec3 - Vec3`). -/
def Vec3.sub (a b : Vec3) : Vec3 := ⟨a.x - b.x, a.y - b.y, a.z - b.z⟩

/-- Scalar multiplication on the right (glam `Vec3 * f32`). -/
def Vec3.mulScalar (v : Vec3) (c : ℚ) : Vec3 := ⟨v.x * c, v.y * c, v.z * c⟩

instance : Add Vec3 := ⟨Vec3.add⟩

instance : Sub Vec3 := ⟨Vec3.sub⟩

instance : HMul Vec3 ℚ Vec3 := ⟨Vec3.mulScalar⟩

/-- glam `Vec3::Y`, the world up vector. -/
def Vec3.yUp : Vec3 := ⟨0, 1, 0⟩

/-- `LookTransform` from `src/src/look_transform.rs`: an eye, the target it
looks at, an optional up hint and an optional zoom scale. -/
structure LookTransform where
  eye : Vec3
  target : Vec3
  up : Option Vec3
  scale : Option ℚ
deriving DecidableEq, Repr

/-- `LookTransform::new` (`up` and `scale` absent). -/
def LookTransform.new (eye target : Vec3) : LookTransform :=
  ⟨eye, target, none, none⟩

/-- `LookTransform::new_with_scale`. -/
def LookTransform.new_with_scale (eye target : Vec3) (scale : ℚ) : LookTransform :=
  ⟨eye, target, none, some scale⟩

/-- `Smoother` from `src/src/look_transform.rs`: exponential-lag filter state. -/
structure Smoother where
  lag_weight : ℚ
  lerp_tfm : Option LookTransform
  enabled : Bool
deriving DecidableEq, Repr

/-- `Smoother::new`: stores the given `lag_weight` with no history, enabled.
The Rust constructor performs no validation of `lag_weight`. -/
def Smoother.new (lag_weight : ℚ) : Smoother :=
  ⟨lag_weight, none, true⟩

/-- `Smoother::reset`: clears the stored smoothed state. -/
def Smoother.reset (s : Smoother) : Smoother :=
  { s with lerp_tfm := none }

/-- `Smoother::set_enabled`: stores the flag, and on enabling also resets the
smoother state (the `if self.enabled { self.reset() }` branch). -/
def Smoother.set_enabled (s : Smoother) (enabled : Bool) : Smoother :=
  let s1 := { s with enabled := enabled }
  if enabled then s1.reset else s1

/-- `Smoother::set_lag_weight`: stores the new weight with no validation. -/
def Smoother.set_lag_weight (s : Smoother) (lag_weight : ℚ) : Smoother :=
  { s with lag_weight := lag_weight }

/-- `Smoother::smooth_transform`: blends the previous smoothed transform
(seeded with `new_tfm` when there is none, via `unwrap_or`) with the new one
using weights `lag_weight` and `lead_weight = 1 - lag_weight`; `up` passes
through, `scale` blends only when both sides carry one. Returns the result
together with the updated smoother (the Rust method mutates `self.lerp_tfm`). -/
def Smoother.smooth_transform (s : Smoother) (new_tfm : LookTransform) :
    LookTransform × Smoother :=
  let old_lerp_tfm := s.lerp_tfm.getD new_tfm
  let lead_weight : ℚ := 1 - s.lag_weight
  let scale : Option ℚ :=
    match old_lerp_tfm.scale, new_tfm.scale with
    | some old_scale, some new_scale =>
        some (old_scale * s.lag_weight + new_scale * lead_weight)
    | _, _ => none
  let lerp_tfm : LookTransform :=
    { eye := old_lerp_tfm.eye * s.lag_weight + new_tfm.eye * lead_weight
      target := old_lerp_tfm.target * s.lag_weight + new_tfm.target * lead_weight
      up := new_tfm.up
      scale := scale }
  (lerp_tfm, { s with lerp_tfm := some lerp_tfm })

/-- The two `debug_assert!` statements guarding `Smoother::smooth_transform`
(`0.0 <= self.lag_weight` and `self.lag_weight < 1.0`): in a debug build the
call aborts when they fail, modelled as `none`. -/
def Smoother.smooth_transform_checked (s : Smoother) (new_tfm : LookTransform) :
    Option (LookTransform × Smoother) :=
  if 0 ≤ s.lag_weight ∧ s.lag_weight < 1 then some (s.smooth_transform new_tfm)
  else none

end SmoothBevyCameras

namespace SmoothBevyCameras

/-- Unfolding lemma for vector addition. -/
@[simp] lemma Vec3.add_def (a b : Vec3) :
    a + b = ⟨a.x + b.x, a.y + b.y, a.z + b.z⟩ := rfl

/-- Unfolding lemma for vector subtraction. -/
@[simp] lemma Vec3.sub_def (a b : Vec3) :
    a - b = ⟨a.x - b.x, a.y - b.y, a.z - b.z⟩ := rfl

/-- Unfolding lemma for vector-scalar multiplication. -/
@[simp] lemma Vec3.mulScalar_def (v : Vec3) (c : ℚ) :
    v * c = ⟨v.x * c, v.y * c, v.z * c⟩ := rfl

/-- Blending a vector with itself under complementary weights is the identity. -/
lemma Vec3.blend_self (v : Vec3) (w : ℚ) : v * w + v * (1 - w) = v := by
  obtain ⟨x, y, z⟩ := v
  simp only [Vec3.mulScalar_def, Vec3.add_def, Vec3.mk.injEq]
  refine ⟨by ring, by ring, by ring⟩

/-- Blending a scalar with itself under complementary weights is the identity. -/
lemma blend_self_scalar (a w : ℚ) : a * w + a * (1 - w) = a := by ring

/-- C1: with a stored prior smoothed transform `old`, the result of
`smooth_transform new` has `eye = old.eye * w + new.eye * (1 - w)` and
`target = old.target * w + new.target * (1 - w)` where `w` is the lag weight. -/
theorem C1_smooth_blend_formula (s : Smoother) (old new_tfm : LookTransform)
    (h : s.lerp_tfm = some old) :
    (s.smooth_transform new_tfm).1.eye =
        old.eye * s.lag_weight + new_tfm.eye * (1 - s.lag_weight) ∧
      (s.smooth_transform new_tfm).1.target =
        old.target * s.lag_weight + new_tfm.target * (1 - s.lag_weight) := by
  simp [Smoother.smooth_transform, h]

/-- C1 witness: the spec scenario `lag_weight = 9/10`, prior smoothed eye
`(0,0,0)`, new eye `(10,0,0)` gives smoothed eye `(1,0,0)`. -/
theorem C1_smooth_blend_formula_witness :
    (Smoother.lerp_tfm ⟨9/10, some (LookTransform.new ⟨0,0,0⟩ ⟨0,0,0⟩), true⟩ =
        some (LookTransform.new ⟨0,0,0⟩ ⟨0,0,0⟩)) ∧
      (Smoother.smooth_transform ⟨9/10, some (LookTransform.new ⟨0,0,0⟩ ⟨0,0,0⟩), true⟩
          (LookTransform.new ⟨10,0,0⟩ ⟨0,0,0⟩)).1.eye = ⟨1,0,0⟩ := by
  refine ⟨rfl, ?_⟩
  have h := C1_smooth_blend_formula ⟨9/10, some (LookTransform.new ⟨0,0,0⟩ ⟨0,0,0⟩), true⟩
    (LookTransform.new ⟨0,0,0⟩ ⟨0,0,0⟩) (LookTransform.new ⟨10,0,0⟩ ⟨0,0,0⟩) rfl
  rw [h.1]
  norm_num [LookTransform.new]

/-- C2: the smoother history is empty after construction, after `reset`, and
after re-enabling via `set_enabled true`; and whenever the history is empty,
`smooth_transform` returns its input `LookTransform` exactly unchanged. -/
theorem C2_empty_history_identity (w : ℚ) (s : Smoother) (t : LookTransform) :
    (Smoother.new w).lerp_tfm = none ∧
      s.reset.lerp_tfm = none ∧
      (s.set_enabled true).lerp_tfm = none ∧
      (s.lerp_tfm = none → (s.smooth_transform t).1 = t) := by
  refine ⟨rfl, rfl, rfl, fun h => ?_⟩
  obtain ⟨eye, target, up, scale⟩ := t
  cases scale with
  | none =>
      simp [Smoother.smooth_transform, h, blend_self_scalar]
  | some sc =>
      simp [Smoother.smooth_transform, h, blend_self_scalar]

/-- C2 witness: a freshly constructed smoother with `lag_weight = 9/10`
returns its first input exactly. -/
theorem C2_empty_history_identity_witness :
    (Smoother.new (9/10)).lerp_tfm = none ∧
      ((Smoother.new (9/10)).smooth_transform
          (LookTransform.new_with_scale ⟨3,4,5⟩ ⟨0,1,0⟩ 7)).1 =
        LookTransform.new_with_scale ⟨3,4,5⟩ ⟨0,1,0⟩ 7 :=
  ⟨rfl,
    (C2_empty_history_identity (9/10) (Smoother.new (9/10))
        (LookTransform.new_with_scale ⟨3,4,5⟩ ⟨0,1,0⟩ 7)).2.2.2 rfl⟩

/-- C3 counterexample: `Smoother::new` accepts the out-of-range lag weight
`3/2` and stores it unchanged, and `set_lag_weight` accepts `-1`; neither
rejects the value, so no fatal assertion happens at construction or
configuration time. The range check only fires later, inside
`smooth_transform` (a `debug_assert!`, modelled by
`smooth_transform_checked`, which refuses this smoother). -/
theorem C3_counterexample :
    (Smoother.new (3/2)).lag_weight = 3/2 ∧
      ((Smoother.new (1/2)).set_lag_weight (-1)).lag_weight = -1 ∧
      (Smoother.new (3/2)).smooth_transform_checked
          (LookTransform.new ⟨0,0,0⟩ ⟨0,0,1⟩) = none := by
  refine ⟨rfl, rfl, ?_⟩
  rw [Smoother.smooth_transform_checked, if_neg]
  norm_num [Smoother.new]

/-- C3 amended: `Smoother::new` and `set_lag_weight` store any given
`lag_weight` unchecked; the precondition `0 ≤ lag_weight < 1` is enforced
only by the `debug_assert!` statements at the start of `smooth_transform`
(fatal in debug builds only), so an out-of-range weight aborts at the first
smoothing call, not at construction or configuration time. -/
theorem C3_lag_weight_checked_at_smoothing (w : ℚ) (s : Smoother)
    (t : LookTransform) :
    (Smoother.new w).lag_weight = w ∧
      (s.set_lag_weight w).lag_weight = w ∧
      (¬(0 ≤ w ∧ w < 1) → (Smoother.new w).smooth_transform_checked t = none) ∧
      ((0 ≤ w ∧ w < 1) →
        (Smoother.new w).smooth_transform_checked t =
          some ((Smoother.new w).smooth_transform t)) := by
  refine ⟨rfl, rfl, fun h => ?_, fun h => ?_⟩
  · rw [Smoother.smooth_transform_checked, if_neg]
    exact h
  · rw [Smoother.smooth_transform_checked, if_pos]
    exact h

/-- C3 witness: the amended behavior at the concrete weights `3/2` (rejected
only when smoothing) and `1/2` (smoothing proceeds). -/
theorem C3_lag_weight_checked_at_smoothing_witness :
    ¬((0:ℚ) ≤ 3/2 ∧ (3/2:ℚ) < 1) ∧
      (Smoother.new (3/2)).smooth_transform_checked
          (LookTransform.new ⟨1,2,3⟩ ⟨0,0,1⟩) = none ∧
      ((0:ℚ) ≤ 1/2 ∧ (1/2:ℚ) < 1) ∧
      (Smoother.new (1/2)).smooth_transform_checked
          (LookTransform.new ⟨1,2,3⟩ ⟨0,0,1⟩) =
        some ((Smoother.new (1/2)).smooth_transform
          (LookTransform.new ⟨1,2,3⟩ ⟨0,0,1⟩)) := by
  have h32 : ¬((0:ℚ) ≤ 3/2 ∧ (3/2:ℚ) < 1) := by norm_num
  have h12 : (0:ℚ) ≤ 1/2 ∧ (1/2:ℚ) < 1 := by norm_num
  exact ⟨h32,
    (C3_lag_weight_checked_at_smoothing (3/2) (Smoother.new 0)
        (LookTransform.new ⟨1,2,3⟩ ⟨0,0,1⟩)).2.2.1 h32, h12,
    (C3_lag_weight_checked_at_smoothing (1/2) (Smoother.new 0)
        (LookTransform.new ⟨1,2,3⟩ ⟨0,0,1⟩)).2.2.2 h12⟩

/-- C8: the smoothed transform's scale is the blend
`old_scale * lag_weight + new_scale * lead_weight` exactly when both the
effective prior (the stored smoothed transform, seeded with the input when
absent) and the new input carry a scale; if either side's scale is absent the
result's scale is absent. -/
theorem C8_scale_propagation (s : Smoother) (t : LookTransform) (a b : ℚ) :
    ((s.lerp_tfm.getD t).scale = some a → t.scale = some b →
        (s.smooth_transform t).1.scale =
          some (a * s.lag_weight + b * (1 - s.lag_weight))) ∧
      (((s.lerp_tfm.getD t).scale = none ∨ t.scale = none) →
        (s.smooth_transform t).1.scale = none) := by
  constructor
  · intro ha hb
    simp [Smoother.smooth_transform, ha, hb]
  · rintro (h | h)
    · cases hb : t.scale <;> simp [Smoother.smooth_transform, h, hb]
    · cases ha : (s.lerp_tfm.getD t).scale <;>
        simp [Smoother.smooth_transform, ha, h]

/-- C8 witness: with lag weight `1/2`, scales `2` (prior) and `4` (new) blend
to `3`; a prior without scale forces an absent result scale even though the
new input carries one. -/
theorem C8_scale_propagation_witness :
    ((Smoother.mk (1/2) (some (LookTransform.new_with_scale ⟨0,0,0⟩ ⟨0,0,0⟩ 2))
          true).smooth_transform
        (LookTransform.new_with_scale ⟨1,1,1⟩ ⟨0,0,0⟩ 4)).1.scale = some 3 ∧
      ((Smoother.mk (1/2) (some (LookTransform.new ⟨0,0,0⟩ ⟨0,0,0⟩))
          true).smooth_transform
        (LookTransform.new_with_scale ⟨1,1,1⟩ ⟨0,0,0⟩ 4)).1.scale = none := by
  constructor
  · have h := (C8_scale_propagation
        ⟨1/2, some (LookTransform.new_with_scale ⟨0,0,0⟩ ⟨0,0,0⟩ 2), true⟩
        (LookTransform.new_with_scale ⟨1,1,1⟩ ⟨0,0,0⟩ 4) 2 4).1 rfl rfl
    rw [h]
    norm_num
  · exact (C8_scale_propagation
      ⟨1/2, some (LookTransform.new ⟨0,0,0⟩ ⟨0,0,0⟩), true⟩
      (LookTransform.new_with_scale ⟨1,1,1⟩ ⟨0,0,0⟩ 4) 0 0).2 (Or.inl rfl)

/-- A convex combination with weights `w` and `1 - w`, `0 ≤ w ≤ 1`, stays
between the two endpoints. -/
lemma convex_min_le (a b w : ℚ) (h0 : 0 ≤ w) (h1 : w ≤ 1) :
    min a b ≤ a * w + b * (1 - w) ∧ a * w + b * (1 - w) ≤ max a b := by
  rcases le_total a b with hab | hab
  · rw [min_eq_left hab, max_eq_right hab]
    constructor <;> nlinarith
  · rw [min_eq_right hab, max_eq_left hab]
    constructor <;> nlinarith

/-- C9: for a lag weight in `[0,1)`, every component of the smoothed eye and
target lies between the corresponding components of the effective prior and
the new input: the blend never overshoots either endpoint. -/
theorem C9_no_overshoot (s : Smoother) (t : LookTransform)
    (h0 : 0 ≤ s.lag_weight) (h1 : s.lag_weight < 1) :
    (min (s.lerp_tfm.getD t).eye.x t.eye.x ≤ (s.smooth_transform t).1.eye.x ∧
        (s.smooth_transform t).1.eye.x ≤ max (s.lerp_tfm.getD t).eye.x t.eye.x) ∧
      (min (s.lerp_tfm.getD t).eye.y t.eye.y ≤ (s.smooth_transform t).1.eye.y ∧
        (s.smooth_transform t).1.eye.y ≤ max (s.lerp_tfm.getD t).eye.y t.eye.y) ∧
      (min (s.lerp_tfm.getD t).eye.z t.eye.z ≤ (s.smooth_transform t).1.eye.z ∧
        (s.smooth_transform t).1.eye.z ≤ max (s.lerp_tfm.getD t).eye.z t.eye.z) ∧
      (min (s.lerp_tfm.getD t).target.x t.target.x ≤ (s.smooth_transform t).1.target.x ∧
        (s.smooth_transform t).1.target.x ≤ max (s.lerp_tfm.getD t).target.x t.target.x) ∧
      (min (s.lerp_tfm.getD t).target.y t.target.y ≤ (s.smooth_transform t).1.target.y ∧
        (s.smooth_transform t).1.target.y ≤ max (s.lerp_tfm.getD t).target.y t.target.y) ∧
      (min (s.lerp_tfm.getD t).target.z t.target.z ≤ (s.smooth_transform t).1.target.z ∧
        (s.smooth_transform t).1.target.z ≤ max (s.lerp_tfm.getD t).target.z t.target.z) := by
  have key := fun a b => convex_min_le a b s.lag_weight h0 (le_of_lt h1)
  simp only [Smoother.smooth_transform, Vec3.add_def, Vec3.mulScalar_def]
  exact ⟨key _ _, key _ _, key _ _, key _ _, key _ _, key _ _⟩

/-- C9 witness: lag weight `1/2`, prior eye `(0,0,0)`, new eye `(4,0,0)`: the
smoothed eye's x component `2` lies between `0` and `4`. -/
theorem C9_no_overshoot_witness :
    (0:ℚ) ≤ 1/2 ∧ (1/2:ℚ) < 1 ∧
      ((Smoother.mk (1/2) (some (LookTransform.new ⟨0,0,0⟩ ⟨0,0,0⟩))
          true).smooth_transform (LookTransform.new ⟨4,0,0⟩ ⟨0,0,0⟩)).1.eye.x = 2 ∧
      min (0:ℚ) 4 ≤ 2 ∧ (2:ℚ) ≤ max 0 4 := by
  have h := (C9_no_overshoot
      ⟨1/2, some (LookTransform.new ⟨0,0,0⟩ ⟨0,0,0⟩), true⟩
      (LookTransform.new ⟨4,0,0⟩ ⟨0,0,0⟩) (by norm_num) (by norm_num)).1
  have hx : ((Smoother.mk (1/2) (some (LookTransform.new ⟨0,0,0⟩ ⟨0,0,0⟩))
      true).smooth_transform (LookTransform.new ⟨4,0,0⟩ ⟨0,0,0⟩)).1.eye.x = 2 := by
    norm_num [Smoother.smooth_transform, LookTransform.new]
  refine ⟨by norm_num, by norm_num, hx, ?_, ?_⟩
  · rw [← hx]
    exact h.1
  · rw [← hx]
    exact h.2

/-- glam `Vec2` over `ℚ`. -/
structure Vec2 where
  x : ℚ
  y : ℚ
deriving DecidableEq, Repr

/-- bevy `Rect`. -/
structure Rect where
  min : Vec2
  max : Vec2
deriving DecidableEq, Repr

/-- bevy `Rect::new` (via `Rect::from_corners`): stores the componentwise
minimum of the two corners as `min` and the componentwise maximum as `max`. -/
def Rect.new (x0 y0 x1 y1 : ℚ) : Rect :=
  ⟨⟨Min.min x0 x1, Min.min y0 y1⟩, ⟨Max.max x0 x1, Max.max y0 y1⟩⟩

/-- bevy `ScalingMode` (the variants matched in
`src/examples/simple_orbit_custom_projection.rs`). -/
inductive ScalingMode where
  | WindowSize (pixel_scale : ℚ)
  | AutoMin (min_width min_height : ℚ)
  | AutoMax (max_width max_height : ℚ)
  | FixedVertical (viewport_height : ℚ)
  | FixedHorizontal (viewport_width : ℚ)
  | Fixed (width height : ℚ)
deriving DecidableEq, Repr

/-- `CeilingProjection` from `src/examples/simple_orbit_custom_projection.rs`. -/
structure CeilingProjection where
  near : ℚ
  far : ℚ
  viewport_origin : Vec2
  scaling_mode : ScalingMode
  scale : ℚ
  area : Rect
deriving DecidableEq, Repr

/-- The `Default` impl for `CeilingProjection`. -/
def CeilingProjection.default : CeilingProjection :=
  ⟨0, 1000, ⟨1/2, 1/2⟩, ScalingMode.WindowSize 1, 1, Rect.new (-1) (-1) 1 1⟩

/-- The `match self.scaling_mode` block of `CeilingProjection::update`,
computing `(projection_width, projection_height)` from the window size. -/
def projection_size (mode : ScalingMode) (width height : ℚ) : ℚ × ℚ :=
  match mode with
  | .WindowSize pixel_scale => (width / pixel_scale, height / pixel_scale)
  | .AutoMin min_width min_height =>
      if width * min_height > min_width * height then
        (width * min_height / height, min_height)
      else
        (min_width, height * min_width / width)
  | .AutoMax max_width max_height =>
      if width * max_height < max_width * height then
        (width * max_height / height, max_height)
      else
        (max_width, height * max_width / width)
  | .FixedVertical viewport_height => (width * viewport_height / height, viewport_height)
  | .FixedHorizontal viewport_width => (viewport_width, height * viewport_width / width)
  | .Fixed w h => (w, h)

/-- `CeilingProjection::update`: recomputes `area` from the projection size,
`scale` and `viewport_origin`. -/
def CeilingProjection.update (p : CeilingProjection) (width height : ℚ) :
    CeilingProjection :=
  let ps := projection_size p.scaling_mode width height
  let origin_x := ps.1 * p.viewport_origin.x
  let origin_y := ps.2 * p.viewport_origin.y
  { p with area := (Rect.new (p.scale * -origin_x) (p.scale * -origin_y)
      (p.scale * (ps.1 - origin_x)) (p.scale * (ps.2 - origin_y))) }

/-- A 4×4 matrix over `ℚ`, stored column-major as in glam `Mat4`
(`mIJ` is column `I`, row `J`). -/
structure Mat4 where
  m00 : ℚ
  m01 : ℚ
  m02 : ℚ
  m03 : ℚ
  m10 : ℚ
  m11 : ℚ
  m12 : ℚ
  m13 : ℚ
  m20 : ℚ
  m21 : ℚ
  m22 : ℚ
  m23 : ℚ
  m30 : ℚ
  m31 : ℚ
  m32 : ℚ
  m33 : ℚ
deriving DecidableEq, Repr

/-- glam `Mat4::orthographic_rh` (right-handed, depth range `[0,1]`). -/
def Mat4.orthographic_rh (left right bottom top near far : ℚ) : Mat4 :=
  let rcp_width := 1 / (right - left)
  let rcp_height := 1 / (top - bottom)
  let r := 1 / (near - far)
  { m00 := rcp_width + rcp_width, m01 := 0, m02 := 0, m03 := 0
    m10 := 0, m11 := rcp_height + rcp_height, m12 := 0, m13 := 0
    m20 := 0, m21 := 0, m22 := r, m23 := 0
    m30 := -(left + right) * rcp_width, m31 := -(top + bottom) * rcp_height
    m32 := r * near, m33 := 1 }

/-- Application of a matrix to the point `(x, y, z, 1)`, returning the first
three components (for the orthographic matrices here the resulting `w` is
`1`, so these are the NDC coordinates). -/
def Mat4.xformPoint (m : Mat4) (x y z : ℚ) : ℚ × ℚ × ℚ :=
  (m.m00 * x + m.m10 * y + m.m20 * z + m.m30,
    m.m01 * x + m.m11 * y + m.m21 * z + m.m31,
    m.m02 * x + m.m12 * y + m.m22 * z + m.m32)

/-- `CeilingProjection::get_projection_matrix`: `orthographic_rh` with the
x bounds swapped (`area.max.x` as `left`, `area.min.x` as `right`) and the
depth bounds swapped (`far` as the matrix's `near`, `near` as its `far`). -/
def CeilingProjection.get_projection_matrix (p : CeilingProjection) : Mat4 :=
  Mat4.orthographic_rh p.area.max.x p.area.min.x p.area.min.y p.area.max.y
    p.far p.near

/-- C4 counterexample: with `AutoMin{min_width:4, min_height:3}`, `width=800`,
`height=300`, the code's comparison `800*3 > 4*300` is true (not the claimed
width-bound case), and the projection size is `(8, 3)`, not `(400, 300)`. -/
theorem C4_counterexample :
    projection_size (ScalingMode.AutoMin 4 3) 800 300 ≠ ((400 : ℚ), (300 : ℚ)) ∧
      (800 : ℚ) * 3 > 4 * 300 := by
  constructor
  · norm_num [projection_size]
  · norm_num

/-- C4 amended: with `AutoMin{min_width:4, min_height:3}`, `width=800`,
`height=300`, the comparison `800*3 = 2400 > 4*300 = 1200` holds, so `update`
takes the branch pinning the height to `min_height`, yielding projection size
`(800*3/300, 3) = (8, 3)`. -/
theorem C4_autoMin_example :
    (800 : ℚ) * 3 > 4 * 300 ∧
      projection_size (ScalingMode.AutoMin 4 3) 800 300 = ((8 : ℚ), (3 : ℚ)) := by
  constructor
  · norm_num
  · norm_num [projection_size]

/-- C5: for positive window and minimum dimensions, the `AutoMin` projection
size keeps both dimensions at least at their minimums, preserves the window's
aspect ratio, and the comparison `width*min_height` vs `min_width*height`
selects which minimum binds (the larger product side's minimum is attained). -/
theorem C5_autoMin_bounds (min_width min_height width height : ℚ)
    (hmw : 0 < min_width) (hmh : 0 < min_height)
    (hw : 0 < width) (hh : 0 < height) :
    min_width ≤ (projection_size (ScalingMode.AutoMin min_width min_height) width height).1 ∧
      min_height ≤ (projection_size (ScalingMode.AutoMin min_width min_height) width height).2 ∧
      (projection_size (ScalingMode.AutoMin min_width min_height) width height).1 /
          (projection_size (ScalingMode.AutoMin min_width min_height) width height).2 =
        width / height ∧
      (width * min_height > min_width * height →
        (projection_size (ScalingMode.AutoMin min_width min_height) width height).2 =
          min_height) ∧
      (¬ width * min_height > min_width * height →
        (projection_size (ScalingMode.AutoMin min_width min_height) width height).1 =
          min_width) := by
  by_cases hc : width * min_height > min_width * height
  · have hps : projection_size (ScalingMode.AutoMin min_width min_height) width height =
        (width * min_height / height, min_height) := by
      simp [projection_size, hc]
    rw [hps]
    refine ⟨?_, le_refl _, ?_, fun _ => rfl, fun hcon => absurd hc hcon⟩
    · show min_width ≤ width * min_height / height
      rw [le_div_iff₀ hh]
      linarith
    · show width * min_height / height / min_height = width / height
      field_simp
      ring
  · have hps : projection_size (ScalingMode.AutoMin min_width min_height) width height =
        (min_width, height * min_width / width) := by
      simp [projection_size, hc]
    rw [hps]
    refine ⟨le_refl _, ?_, ?_, fun hcon => absurd hcon hc, fun _ => rfl⟩
    · show min_height ≤ height * min_width / width
      rw [le_div_iff₀ hw]
      push_neg at hc
      linarith
    · show min_width / (height * min_width / width) = width / height
      field_simp [hw.ne', hh.ne', hmw.ne']
      ring

/-- C5 witness: at `AutoMin{4,3}`, `width=800`, `height=300` the projection
size `(8, 3)` meets both minimums and preserves the aspect ratio. -/
theorem C5_autoMin_bounds_witness :
    (0:ℚ) < 4 ∧ (0:ℚ) < 3 ∧ (0:ℚ) < 800 ∧ (0:ℚ) < 300 ∧
      projection_size (ScalingMode.AutoMin 4 3) 800 300 = ((8:ℚ), (3:ℚ)) ∧
      (4:ℚ) ≤ (projection_size (ScalingMode.AutoMin 4 3) 800 300).1 ∧
      (3:ℚ) ≤ (projection_size (ScalingMode.AutoMin 4 3) 800 300).2 ∧
      (projection_size (ScalingMode.AutoMin 4 3) 800 300).1 /
          (projection_size (ScalingMode.AutoMin 4 3) 800 300).2 = 800 / 300 := by
  have h := C5_autoMin_bounds 4 3 800 300 (by norm_num) (by norm_num)
    (by norm_num) (by norm_num)
  have hps : projection_size (ScalingMode.AutoMin 4 3) 800 300 = ((8:ℚ), (3:ℚ)) := by
    norm_num [projection_size]
  exact ⟨by norm_num, by norm_num, by norm_num, by norm_num, hps, h.1, h.2.1, h.2.2.1⟩

/-- C6: `get_projection_matrix` calls `Mat4::orthographic_rh` with the stored
`far` as the matrix's `near` argument and the stored `near` as its `far`
argument; consequently, for `near ≠ far`, a point on the stored near plane
(`z = -near`) receives NDC depth `1` and a point on the stored far plane
(`z = -far`) receives NDC depth `0` — the depth range is inverted to `[1,0]`. -/
theorem C6_near_far_swap (p : CeilingProjection) (h : p.near ≠ p.far) :
    p.get_projection_matrix =
        Mat4.orthographic_rh p.area.max.x p.area.min.x p.area.min.y p.area.max.y
          p.far p.near ∧
      (∀ x y : ℚ, (p.get_projection_matrix.xformPoint x y (-p.near)).2.2 = 1) ∧
      (∀ x y : ℚ, (p.get_projection_matrix.xformPoint x y (-p.far)).2.2 = 0) := by
  have hfn : p.far - p.near ≠ 0 := sub_ne_zero.mpr (Ne.symm h)
  refine ⟨rfl, fun x y => ?_, fun x y => ?_⟩
  · simp only [CeilingProjection.get_projection_matrix, Mat4.orthographic_rh,
      Mat4.xformPoint]
    field_simp
    ring
  · simp only [CeilingProjection.get_projection_matrix, Mat4.orthographic_rh,
      Mat4.xformPoint]
    ring

/-- C6 witness: for the default projection (`near = 0`, `far = 1000`), the
point depth at `z = -near` is `1` and at `z = -far` is `0`. -/
theorem C6_near_far_swap_witness :
    CeilingProjection.default.near ≠ CeilingProjection.default.far ∧
      (CeilingProjection.default.get_projection_matrix.xformPoint 5 7
          (-CeilingProjection.default.near)).2.2 = 1 ∧
      (CeilingProjection.default.get_projection_matrix.xformPoint 5 7
          (-CeilingProjection.default.far)).2.2 = 0 := by
  have hne : CeilingProjection.default.near ≠ CeilingProjection.default.far := by
    norm_num [CeilingProjection.default]
  exact ⟨hne, (C6_near_far_swap CeilingProjection.default hne).2.1 5 7,
    (C6_near_far_swap CeilingProjection.default hne).2.2 5 7⟩

/-- C10: `get_projection_matrix` also mirrors the x axis: `area.max.x` is
passed as the orthographic matrix's `left` argument and `area.min.x` as its
`right`, so for a nondegenerate area the NDC x coordinate of every point is
the negation of the one produced by the standard orthographic projection over
the same area. -/
theorem C10_x_axis_mirror (p : CeilingProjection)
    (h : p.area.min.x ≠ p.area.max.x) (x y z : ℚ) :
    p.get_projection_matrix =
        Mat4.orthographic_rh p.area.max.x p.area.min.x p.area.min.y p.area.max.y
          p.far p.near ∧
      (p.get_projection_matrix.xformPoint x y z).1 =
        -((Mat4.orthographic_rh p.area.min.x p.area.max.x p.area.min.y
            p.area.max.y p.far p.near).xformPoint x y z).1 := by
  have h1 : p.area.max.x - p.area.min.x ≠ 0 := sub_ne_zero.mpr (Ne.symm h)
  have h2 : p.area.min.x - p.area.max.x ≠ 0 := sub_ne_zero.mpr h
  refine ⟨rfl, ?_⟩
  simp only [CeilingProjection.get_projection_matrix, Mat4.orthographic_rh,
    Mat4.xformPoint]
  field_simp
  ring

/-- C10 witness: for the default projection (area from `(-1,-1)` to `(1,1)`),
the NDC x of the point `(5,7,11)` is the negation of the standard one. -/
theorem C10_x_axis_mirror_witness :
    CeilingProjection.default.area.min.x ≠ CeilingProjection.default.area.max.x ∧
      (CeilingProjection.default.get_projection_matrix.xformPoint 5 7 11).1 =
        -((Mat4.orthographic_rh CeilingProjection.default.area.min.x
            CeilingProjection.default.area.max.x CeilingProjection.default.area.min.y
            CeilingProjection.default.area.max.y CeilingProjection.default.far
            CeilingProjection.default.near).xformPoint 5 7 11).1 := by
  have hne : CeilingProjection.default.area.min.x ≠
      CeilingProjection.default.area.max.x := by
    norm_num [CeilingProjection.default, Rect.new]
  exact ⟨hne, (C10_x_axis_mirror CeilingProjection.default hne 5 7 11).2⟩

/-- glam `Vec3` over `ℝ`, used for the one operation whose edge case lives in
a square root and a division: `Vec3::normalize`. -/
structure Vec3R where
  x : ℝ
  y : ℝ
  z : ℝ

/-- Componentwise addition on real vectors. -/
def Vec3R.add (a b : Vec3R) : Vec3R := ⟨a.x + b.x, a.y + b.y, a.z + b.z⟩

/-- Componentwise subtraction on real vectors. -/
def Vec3R.sub (a b : Vec3R) : Vec3R := ⟨a.x - b.x, a.y - b.y, a.z - b.z⟩

instance : Add Vec3R := ⟨Vec3R.add⟩

instance : Sub Vec3R := ⟨Vec3R.sub⟩

/-- Unfolding lemma for real vector addition. -/
@[simp] lemma Vec3R.add_unfold (a b : Vec3R) :
    a + b = ⟨a.x + b.x, a.y + b.y, a.z + b.z⟩ := rfl

/-- Unfolding lemma for real vector subtraction. -/
@[simp] lemma Vec3R.sub_unfold (a b : Vec3R) :
    a - b = ⟨a.x - b.x, a.y - b.y, a.z - b.z⟩ := rfl

/-- Squared length (glam `Vec3::length_squared`). -/
def Vec3R.lengthSq (v : Vec3R) : ℝ := v.x ^ 2 + v.y ^ 2 + v.z ^ 2

/-- glam `Vec3::length`. -/
noncomputable def Vec3R.length (v : Vec3R) : ℝ := Real.sqrt v.lengthSq

open Classical in
/-- glam `Vec3::normalize`, i.e. `self * self.length().recip()`. On the zero
vector the Rust code divides `0` by `0`, producing NaN components (and glam's
`glam_assert` aborts there in debug builds); that invalid outcome is modelled
as `none`. Every other vector is scaled by the reciprocal of its length. -/
noncomputable def Vec3R.normalize (v : Vec3R) : Option Vec3R :=
  if v.lengthSq = 0 then none
  else some ⟨v.x / v.length, v.y / v.length, v.z / v.length⟩

/-- bevy `Transform::from_translation(eye).looking_at(look_at, up)`,
represented by its defining data — the translation, the look-at point and the
up hint (the rotation derivation itself lives in the bevy framework, outside
this repository). -/
structure TransformR where
  translation : Vec3R
  look_at : Vec3R
  up : Vec3R

/-- `eye_look_at_target_transform` from `src/src/look_transform.rs`:
normalizes `target - eye` and builds the transform translating by `eye` and
looking at `eye + look_vector`. The `none` case is the NaN outcome of
normalizing a zero look vector. -/
noncomputable def eye_look_at_target_transform (eye target up : Vec3R) :
    Option TransformR :=
  Option.map (fun look_vector => ⟨eye, eye + look_vector, up⟩)
    (target - eye).normalize

/-- A real vector has zero squared length exactly when it is the zero vector. -/
lemma Vec3R.lengthSq_eq_zero_iff (v : Vec3R) :
    v.lengthSq = 0 ↔ v = ⟨0, 0, 0⟩ := by
  obtain ⟨x, y, z⟩ := v
  simp only [Vec3R.lengthSq, Vec3R.mk.injEq]
  constructor
  · intro h
    have hx : x ^ 2 = 0 := by nlinarith [sq_nonneg x, sq_nonneg y, sq_nonneg z]
    have hy : y ^ 2 = 0 := by nlinarith [sq_nonneg x, sq_nonneg y, sq_nonneg z]
    have hz : z ^ 2 = 0 := by nlinarith [sq_nonneg x, sq_nonneg y, sq_nonneg z]
    exact ⟨pow_eq_zero_iff two_ne_zero |>.mp hx,
      pow_eq_zero_iff two_ne_zero |>.mp hy,
      pow_eq_zero_iff two_ne_zero |>.mp hz⟩
  · rintro ⟨hx, hy, hz⟩
    subst hx
    subst hy
    subst hz
    norm_num

/-- Componentwise subtraction vanishes exactly on equal vectors. -/
lemma Vec3R.sub_eq_zero_iff (a b : Vec3R) : a - b = ⟨0, 0, 0⟩ ↔ a = b := by
  obtain ⟨a1, a2, a3⟩ := a
  obtain ⟨b1, b2, b3⟩ := b
  simp [Vec3R.mk.injEq, sub_eq_zero]

/-- C7 counterexample: when eye and target coincide exactly, the look vector
is the zero vector and `normalize` divides it by its zero length, so the
conversion produces the invalid (NaN) transform — modelled as `none` — rather
than a defensively degraded orientation. -/
theorem C7_counterexample :
    eye_look_at_target_transform ⟨0, 0, 0⟩ ⟨0, 0, 0⟩ ⟨0, 1, 0⟩ = none := by
  have h0 : ((⟨0, 0, 0⟩ : Vec3R) - ⟨0, 0, 0⟩).lengthSq = 0 := by
    norm_num [Vec3R.sub_unfold, Vec3R.lengthSq]
  rw [eye_look_at_target_transform, Vec3R.normalize, if_pos h0]
  rfl

/-- C7 amended: the conversion is defensive only for distinct eye and target:
whenever `target ≠ eye` — however small the separation — normalization
succeeds, and the result translates by `eye` and looks at `eye` plus a unit
look vector; when eye and target coincide exactly, the zero look vector is
divided by its zero length and the conversion yields an invalid (NaN) value
instead of a degraded orientation. -/
theorem C7_look_at_defensive (eye target up : Vec3R) (h : target ≠ eye) :
    ∃ lv : Vec3R,
      (target - eye).normalize = some lv ∧
        eye_look_at_target_transform eye target up = some ⟨eye, eye + lv, up⟩ ∧
        lv.lengthSq = 1 := by
  have hne0 : (target - eye).lengthSq ≠ 0 := by
    intro h0
    exact h ((Vec3R.sub_eq_zero_iff target eye).mp
      ((Vec3R.lengthSq_eq_zero_iff (target - eye)).mp h0))
  have hnn : 0 ≤ (target - eye).lengthSq := by
    obtain ⟨a1, a2, a3⟩ := target
    obtain ⟨b1, b2, b3⟩ := eye
    simp only [Vec3R.sub_unfold, Vec3R.lengthSq]
    positivity
  have hS : 0 < (target - eye).lengthSq := lt_of_le_of_ne hnn (Ne.symm hne0)
  have hLpos : 0 < (target - eye).length := Real.sqrt_pos.mpr hS
  have hL2 : (target - eye).length ^ 2 = (target - eye).lengthSq :=
    Real.sq_sqrt hnn
  refine ⟨⟨(target - eye).x / (target - eye).length,
    (target - eye).y / (target - eye).length,
    (target - eye).z / (target - eye).length⟩, ?_, ?_, ?_⟩
  · rw [Vec3R.normalize, if_neg hne0]
  · rw [eye_look_at_target_transform, Vec3R.normalize, if_neg hne0]
    rfl
  · show ((target - eye).x / (target - eye).length) ^ 2 +
        ((target - eye).y / (target - eye).length) ^ 2 +
        ((target - eye).z / (target - eye).length) ^ 2 = 1
    rw [div_pow, div_pow, div_pow, div_add_div_same, div_add_div_same, hL2]
    exact div_self hne0

/-- C7 witness: for eye `(0,0,0)` and target `(1,0,0)` the conversion
succeeds with a unit look vector. -/
theorem C7_look_at_defensive_witness :
    ((⟨1, 0, 0⟩ : Vec3R) ≠ ⟨0, 0, 0⟩) ∧
      ∃ lv : Vec3R,
        ((⟨1, 0, 0⟩ : Vec3R) - ⟨0, 0, 0⟩).normalize = some lv ∧
          eye_look_at_target_transform ⟨0, 0, 0⟩ ⟨1, 0, 0⟩ ⟨0, 1, 0⟩ =
            some ⟨⟨0, 0, 0⟩, (⟨0, 0, 0⟩ : Vec3R) + lv, ⟨0, 1, 0⟩⟩ ∧
          lv.lengthSq = 1 := by
  have hne : (⟨1, 0, 0⟩ : Vec3R) ≠ ⟨0, 0, 0⟩ := by
    intro hcon
    exact one_ne_zero (congrArg Vec3R.x hcon)
  exact ⟨hne, C7_look_at_defensive ⟨0, 0, 0⟩ ⟨1, 0, 0⟩ ⟨0, 1, 0⟩ hne⟩

end SmoothBevyCameras
